import Mathlib

/-!
Activity timeline renderer of `src/App.js`.

A shallow embedding of the pure part of the `App` component: the minute ruler
(`MinuteScale`), the segment layout (`ActivityLine` and the two `map` loops that
thread the accumulated duration), the legend colours (`colors`), the day selector
(`dateOptions`, `historyData`) and the extraction of the two series from the
statistics payload (`Object.keys` / `Object.values`).

JavaScript numbers are modelled by the rationals `ℚ`. The components come in two
layers. The first takes `+`, `-`, `*`, `/`, `Math.min`, `Math.max` and `Math.ceil` as
the exact operations; it gives the clamped values, flags, tick labels and colours, and
the pixel values up to rounding. The second (`ActivityLine64`, `activityLines64`,
`containerWidth64`) follows every arithmetic operation of the segment layout by
`roundDouble`, the rounding of IEEE binary64, and gives the pixel widths as the code
computes them.
-/

namespace RegimeGuardian

/-! ## Values of the payload -/

/-- A breakdown field of a day record as the JSON payload delivers it: the property can
be missing (`undefined`), `null`, or an object whose own enumerable properties are the
listed `(label, minutes)` entries in enumeration order (each label once). -/
inductive JsBreakdown where
  | undefined : JsBreakdown
  | null : JsBreakdown
  | object (entries : List (String × ℚ)) : JsBreakdown

/-- The built-in `Object.keys`: `ToObject` throws a `TypeError` on `undefined` and `null`;
on an object it lists the own enumerable keys in order. -/
def ObjectKeys : JsBreakdown → Except String (List String)
  | .object entries => .ok (entries.map Prod.fst)
  | .undefined => .error "TypeError: Cannot convert undefined or null to object"
  | .null => .error "TypeError: Cannot convert undefined or null to object"

/-- The built-in `Object.values`: as `Object.keys`, but listing the values. -/
def ObjectValues : JsBreakdown → Except String (List ℚ)
  | .object entries => .ok (entries.map Prod.snd)
  | .undefined => .error "TypeError: Cannot convert undefined or null to object"
  | .null => .error "TypeError: Cannot convert undefined or null to object"

/-- The entries of a breakdown whose keys were already listed by `Object.keys`: the loop
`labels.map((label, i) => breakdown[label] ...)` reads, for the `i`-th key, the value stored
under it, which is the `i`-th entry. -/
def JsBreakdown.entries : JsBreakdown → List (String × ℚ)
  | .object entries => entries
  | .undefined => []
  | .null => []

/-- A day record (`stats.today` and each element of `stats.history`). The `date` property is
`none` when the record has no own `date` property. `flags` holds the remaining own
properties (`workout_planned`, `workout_done`, ...). -/
structure DayRecord where
  date : Option String
  is_rest_day : Bool
  morning_poll_completed : Bool
  screen_time_goal : ℚ
  screen_time_actual : ℚ
  productive_time_actual : ℚ
  screen_time_breakdown : JsBreakdown
  productive_time_breakdown : JsBreakdown
  flags : List (String × Bool)

/-- The statistics payload `stats`. -/
structure StatsResponse where
  today : DayRecord
  history : List DayRecord

/-! ## `MinuteScale` (lines 118-156) -/

/-- One element pushed to `markers`: `key = i`, the label `i * step` (minutes), the CSS
`left` offset in pixels (`'0px'` for `i === 0`, `left` otherwise) and whether the marker
is centred on its offset (`translateX(-50%)`, every marker but the first). -/
structure Marker where
  key : ℕ
  minuteValue : ℚ
  left : ℚ
  centered : Bool
deriving DecidableEq

/-- The body of the `for` loop of `MinuteScale` at index `i`. -/
def marker (step scale : ℚ) (i : ℕ) : Marker :=
  let left := (i : ℚ) * step * scale
  { key := i
    minuteValue := (i : ℚ) * step
    left := if i = 0 then 0 else left
    centered := !(decide (i = 0)) }

/-- The loop `for (let i = ...; i <= totalTicks; i++) markers.push(...)`, started at `i`. -/
def markersFrom (step scale : ℚ) (totalTicks : ℤ) (i : ℕ) : List Marker :=
  if (i : ℤ) ≤ totalTicks then
    marker step scale i :: markersFrom step scale totalTicks (i + 1)
  else []
termination_by (totalTicks + 1 - (i : ℤ)).toNat
decreasing_by omega

/-- What `MinuteScale` renders: the markers and the width of the enclosing `div`. -/
structure MinuteScaleView where
  markers : List Marker
  width : ℚ

/-- The scale computed on line 122, `maxValue > 0 ? 550 / maxValue : 1`. -/
def minuteScaleFactor (maxValue : ℚ) : ℚ :=
  if maxValue > 0 then 550 / maxValue else 1

/-- The component `MinuteScale`. -/
def MinuteScale (maxValue : ℚ) : MinuteScaleView :=
  let step : ℚ := 60
  let totalTicks : ℤ := ⌈maxValue / step⌉
  let scale := minuteScaleFactor maxValue
  { markers := markersFrom step scale totalTicks 0
    width := maxValue * scale }

/-! ## `ActivityLine` (lines 158-177) -/

/-- The props of `ActivityLine`. -/
structure LineProps where
  value : ℚ
  color : Option String
  isLast : Bool
  maxValue : ℚ
  accumulated : ℚ
  isProductive : Bool

/-- What `ActivityLine` computes: the locals `clampedValue`, `scale`, `width`, `isExceeding`,
the background colour, and whether the glow and the `pulse` animation are switched on. -/
structure LineView where
  clampedValue : ℚ
  scale : ℚ
  width : ℚ
  isExceeding : Bool
  backgroundColor : Option String
  pulse : Bool
deriving DecidableEq

/-- The scale computed on line 160, `maxValue > 0 ? 550 / maxValue : 1`. -/
def lineScaleFactor (maxValue : ℚ) : ℚ :=
  if maxValue > 0 then 550 / maxValue else 1

/-- The component `ActivityLine`. -/
def ActivityLine (p : LineProps) : LineView :=
  let clampedValue := min p.value (p.maxValue - max 0 p.accumulated)
  let scale := lineScaleFactor p.maxValue
  let width := clampedValue * scale
  let isExceeding := p.isLast && decide (p.accumulated + p.value > p.maxValue)
  { clampedValue := clampedValue
    scale := scale
    width := width
    isExceeding := isExceeding
    backgroundColor := p.color
    pulse := isExceeding && !p.isProductive }

/-! ## Colours and legend (lines 179-188) -/

/-- The palette `colors`. -/
def colors : List String :=
  ["#00FF9B", "#4D4DFF", "#FF3B5F", "#8C52FF", "#FFD700",
   "#1ABC9C", "#9B59B6", "#FF7F50", "#3498DB", "#F39C12"]

/-- What `ActivityLegend` renders: a swatch of the colour next to the label. -/
structure LegendView where
  label : String
  color : Option String
deriving DecidableEq

/-- The component `ActivityLegend`. -/
def ActivityLegend (label : String) (color : Option String) : LegendView :=
  { label := label, color := color }

/-! ## The two `map` loops of a card (lines 239-260) -/

/-- The loop `labels.map((label, i) => { ...; accumulated += value; return component })`,
from index `i` on with the running total `accumulated`; `n` is `labels.length`. -/
def activityLinesFrom (n : ℕ) (maxValue : ℚ) (isProductive : Bool) :
    List (String × ℚ) → ℕ → ℚ → List LineView
  | [], _, _ => []
  | (_, value) :: rest, i, accumulated =>
      ActivityLine
        { value := value
          color := colors[i % colors.length]?
          isLast := decide ((i : ℤ) = (n : ℤ) - 1)
          maxValue := maxValue
          accumulated := accumulated
          isProductive := isProductive }
        :: activityLinesFrom n maxValue isProductive rest (i + 1) (accumulated + value)

/-- The segments of one series: the loop run from `i = 0` with `accumulated = 0`. -/
def activityLines (maxValue : ℚ) (isProductive : Bool) (series : List (String × ℚ)) :
    List LineView :=
  activityLinesFrom series.length maxValue isProductive series 0 0

/-- The loop `labels.map((label, i) => <ActivityLegend ... color={colors[i % colors.length]} />)`
from index `i` on. -/
def activityLegendsFrom : List String → ℕ → List LegendView
  | [], _ => []
  | label :: rest, i =>
      ActivityLegend label colors[i % colors.length]? :: activityLegendsFrom rest (i + 1)

/-- The legend of one series. -/
def activityLegends (labels : List String) : List LegendView :=
  activityLegendsFrom labels 0

/-- The width of the flex container of the segments (lines 238 and 272),
`maxGoal * (maxGoal > 0 ? 550 / maxGoal : 1)`. -/
def containerWidth (maxGoal : ℚ) : ℚ :=
  maxGoal * (if maxGoal > 0 then 550 / maxGoal else 1)

/-- One timeline card: ruler, segment container and legend. -/
structure Card where
  ruler : MinuteScaleView
  width : ℚ
  lines : List LineView
  legend : List LegendView

/-- The card of a series (lines 232-262 and 266-296). -/
def card (maxGoal : ℚ) (isProductive : Bool) (series : List (String × ℚ)) : Card :=
  { ruler := MinuteScale maxGoal
    width := containerWidth maxGoal
    lines := activityLines maxGoal isProductive series
    legend := activityLegends (series.map Prod.fst) }

/-! ## Day selector (lines 211-217) -/

/-- The object literal `{ date: todayDate, ...stats.today }`: the properties are defined from
left to right, so the spread copies the own properties of `today` after `date` was set and an
own `date` of `today` replaces `todayDate`. -/
def withDate (todayDate : String) (today : DayRecord) : DayRecord :=
  { today with
    date := match today.date with
      | some d => some d
      | none => some todayDate }

/-- The list `dateOptions`; `todayDate` is `new Date().toISOString().split('T')[0]`. -/
def dateOptions (todayDate : String) (stats : StatsResponse) : List DayRecord :=
  if stats.today.morning_poll_completed || stats.today.is_rest_day then
    withDate todayDate stats.today :: stats.history
  else stats.history

/-- The lookup `dateOptions.find(day => day.date === selectedDate)`; `none` is `undefined`. -/
def historyData (todayDate : String) (stats : StatsResponse) (selectedDate : String) :
    Option DayRecord :=
  (dateOptions todayDate stats).find? (fun day => decide (day.date = some selectedDate))

/-! ## The body of `App` once `stats` is loaded (lines 186-300) -/

/-- The timeline part of the rendered page: the two optional cards. -/
structure TimelineView where
  screenCard : Option Card
  productiveCard : Option Card

/-- Lines 190-200 followed by the guarded sections of lines 225-299. The calls of
`Object.keys` and `Object.values` come first and can throw; the cards are rendered only
when the day is not a rest day and the series has at least one label. -/
def timeline (stats : StatsResponse) : Except String TimelineView := do
  let screenActivityLabels ← ObjectKeys stats.today.screen_time_breakdown
  let screenActivityValues ← ObjectValues stats.today.screen_time_breakdown
  let maxScreenGoal := stats.today.screen_time_goal
  let _totalScreenTime := screenActivityValues.foldl (fun sum v => sum + v) 0
  let productiveActivityLabels ← ObjectKeys stats.today.productive_time_breakdown
  let productiveActivityValues ← ObjectValues stats.today.productive_time_breakdown
  let maxProductiveGoal := stats.today.screen_time_goal
  let _totalProductiveTime := productiveActivityValues.foldl (fun sum v => sum + v) 0
  if stats.today.is_rest_day then
    pure { screenCard := none, productiveCard := none }
  else
    pure
      { screenCard :=
          if screenActivityLabels.length > 0 then
            some (card maxScreenGoal false stats.today.screen_time_breakdown.entries)
          else none
        productiveCard :=
          if productiveActivityLabels.length > 0 then
            some (card maxProductiveGoal true stats.today.productive_time_breakdown.entries)
          else none }

/-! ## Binary64 arithmetic of the segment layout (lines 158-162, 238, 252) -/

/-- Rounding of a rational to the nearest integer, a tie going to the even neighbour. -/
def roundHalfEven (y : ℚ) : ℤ :=
  if y - ⌊y⌋ < 1 / 2 then ⌊y⌋
  else if 1 / 2 < y - ⌊y⌋ then ⌊y⌋ + 1
  else if ⌊y⌋ % 2 = 0 then ⌊y⌋
  else ⌊y⌋ + 1

/-- The result a binary64 operation delivers for the exact result `x`: the nearest number
with a 53-bit significand, ties to even, with gradual underflow below `2 ^ (-1022)`.
Overflow to `Infinity` (results of magnitude `2 ^ 1024` and more) is not represented. -/
def roundDouble (x : ℚ) : ℚ :=
  if x = 0 then 0
  else
    let e : ℤ := max (Int.log 2 |x|) (-1022)
    (roundHalfEven (x / 2 ^ (e - 52)) : ℚ) * 2 ^ (e - 52)

/-- Line 160 in binary64: `maxValue > 0 ? 550 / maxValue : 1` with the division rounded. -/
def lineScaleFactor64 (maxValue : ℚ) : ℚ :=
  if maxValue > 0 then roundDouble (550 / maxValue) else 1

/-- The component `ActivityLine` in binary64: the subtraction of line 159, the division of
line 160, the product of line 161 and the sum of line 162 are each rounded. -/
def ActivityLine64 (p : LineProps) : LineView :=
  let clampedValue := min p.value (roundDouble (p.maxValue - max 0 p.accumulated))
  let scale := lineScaleFactor64 p.maxValue
  let width := roundDouble (clampedValue * scale)
  let isExceeding :=
    p.isLast && decide (roundDouble (p.accumulated + p.value) > p.maxValue)
  { clampedValue := clampedValue
    scale := scale
    width := width
    isExceeding := isExceeding
    backgroundColor := p.color
    pulse := isExceeding && !p.isProductive }

/-- The loop of `activityLinesFrom` in binary64: `accumulated += value` is rounded. -/
def activityLinesFrom64 (n : ℕ) (maxValue : ℚ) (isProductive : Bool) :
    List (String × ℚ) → ℕ → ℚ → List LineView
  | [], _, _ => []
  | (_, value) :: rest, i, accumulated =>
      ActivityLine64
        { value := value
          color := colors[i % colors.length]?
          isLast := decide ((i : ℤ) = (n : ℤ) - 1)
          maxValue := maxValue
          accumulated := accumulated
          isProductive := isProductive }
        :: activityLinesFrom64 n maxValue isProductive rest (i + 1)
            (roundDouble (accumulated + value))

/-- The segments of one series in binary64. -/
def activityLines64 (maxValue : ℚ) (isProductive : Bool) (series : List (String × ℚ)) :
    List LineView :=
  activityLinesFrom64 series.length maxValue isProductive series 0 0

/-- The container width of lines 238 and 272 in binary64: division and product rounded. -/
def containerWidth64 (maxGoal : ℚ) : ℚ :=
  roundDouble (maxGoal * (if maxGoal > 0 then roundDouble (550 / maxGoal) else 1))

/-! ## Scale factor -/

theorem minuteScaleFactor_pos (g : ℚ) : 0 < minuteScaleFactor g := by
  unfold minuteScaleFactor
  split_ifs with h
  · exact div_pos (by norm_num) h
  · norm_num

theorem lineScaleFactor_eq (g : ℚ) : lineScaleFactor g = minuteScaleFactor g := rfl

theorem lineScaleFactor_pos (g : ℚ) : 0 < lineScaleFactor g := by
  rw [lineScaleFactor_eq]
  exact minuteScaleFactor_pos g

theorem lineScaleFactor_mul_self (g : ℚ) (hg : 0 < g) : lineScaleFactor g * g = 550 := by
  unfold lineScaleFactor
  rw [if_pos hg]
  exact div_mul_cancel₀ _ (ne_of_gt hg)

/-! ## The segment loop -/

theorem activityLinesFrom_length (n : ℕ) (g : ℚ) (p : Bool) :
    ∀ (s : List (String × ℚ)) (i : ℕ) (acc : ℚ),
      (activityLinesFrom n g p s i acc).length = s.length := by
  intro s
  induction s with
  | nil => intro i acc; rfl
  | cons e rest ih =>
    intro i acc
    obtain ⟨l, v⟩ := e
    simp [activityLinesFrom, ih]

/-- The `k`-th element the loop returns is `ActivityLine` applied to the `k`-th entry, the
colour of position `i + k`, and the running total of the entries before it. -/
theorem activityLinesFrom_getElem (n : ℕ) (g : ℚ) (p : Bool) :
    ∀ (s : List (String × ℚ)) (i : ℕ) (acc : ℚ) (k : ℕ),
      (activityLinesFrom n g p s i acc)[k]? =
        (s[k]?).map (fun e =>
          ActivityLine
            { value := e.2
              color := colors[(i + k) % colors.length]?
              isLast := decide (((i + k : ℕ) : ℤ) = (n : ℤ) - 1)
              maxValue := g
              accumulated := acc + ((s.take k).map Prod.snd).sum
              isProductive := p }) := by
  intro s
  induction s with
  | nil => intro i acc k; simp [activityLinesFrom]
  | cons e rest ih =>
    intro i acc k
    obtain ⟨l, v⟩ := e
    cases k with
    | zero => simp [activityLinesFrom]
    | succ k =>
      simp only [activityLinesFrom, List.getElem?_cons_succ, ih, List.take_succ_cons,
        List.map_cons, List.sum_cons]
      have h1 : i + 1 + k = i + (k + 1) := by omega
      have h2 : acc + v + ((rest.take k).map Prod.snd).sum
          = acc + (v + ((rest.take k).map Prod.snd).sum) := by ring
      rw [h1, h2]

theorem activityLines_getElem (g : ℚ) (p : Bool) (series : List (String × ℚ)) (k : ℕ) :
    (activityLines g p series)[k]? =
      (series[k]?).map (fun e =>
        ActivityLine
          { value := e.2
            color := colors[k % colors.length]?
            isLast := decide (((k : ℕ) : ℤ) = (series.length : ℤ) - 1)
            maxValue := g
            accumulated := ((series.take k).map Prod.snd).sum
            isProductive := p }) := by
  unfold activityLines
  rw [activityLinesFrom_getElem]
  simp

/-- The clamped values add up to at most the goal, whatever was drawn before, as long as
what was drawn before (`c`) is at most the running total and at most the goal. -/
theorem clamped_sum_le (n : ℕ) (g : ℚ) (p : Bool) :
    ∀ (s : List (String × ℚ)) (i : ℕ) (acc c : ℚ), c ≤ acc → c ≤ g →
      c + ((activityLinesFrom n g p s i acc).map LineView.clampedValue).sum ≤ g := by
  intro s
  induction s with
  | nil => intro i acc c _ hcg; simpa [activityLinesFrom] using hcg
  | cons e rest ih =>
    intro i acc c hca hcg
    obtain ⟨l, v⟩ := e
    simp only [activityLinesFrom, List.map_cons, List.sum_cons, ActivityLine]
    rw [← add_assoc]
    apply ih
    · have := min_le_left v (g - max 0 acc)
      linarith
    · have h1 := min_le_right v (g - max 0 acc)
      have h2 := le_max_right (0 : ℚ) acc
      linarith

theorem exceeding_count_le_one (n : ℕ) (g : ℚ) (p : Bool) :
    ∀ (s : List (String × ℚ)) (i : ℕ) (acc : ℚ), i + s.length = n →
      ((activityLinesFrom n g p s i acc).filter LineView.isExceeding).length ≤ 1 := by
  intro s
  induction s with
  | nil => intro i acc _; simp [activityLinesFrom]
  | cons e rest ih =>
    intro i acc hn
    obtain ⟨l, v⟩ := e
    cases rest with
    | nil =>
      simp only [activityLinesFrom]
      exact le_trans (List.length_filter_le _ _) (by simp)
    | cons e2 rest2 =>
      have hlast : decide ((i : ℤ) = (n : ℤ) - 1) = false := by
        simp only [List.length_cons] at hn
        simp only [decide_eq_false_iff_not]
        omega
      have hhead : (ActivityLine
          { value := v
            color := colors[i % colors.length]?
            isLast := decide ((i : ℤ) = (n : ℤ) - 1)
            maxValue := g
            accumulated := acc
            isProductive := p }).isExceeding = false := by
        simp only [ActivityLine, hlast, Bool.false_and]
      rw [activityLinesFrom, List.filter_cons_of_neg (by simp [hhead])]
      apply ih
      simp only [List.length_cons] at hn ⊢
      omega

theorem take_sum_nonneg (series : List (String × ℚ)) (hnn : ∀ e ∈ series, 0 ≤ e.2) (i : ℕ) :
    0 ≤ ((series.take i).map Prod.snd).sum := by
  apply List.sum_nonneg
  intro x hx
  obtain ⟨e, he, rfl⟩ := List.mem_map.1 hx
  exact hnn e (List.mem_of_mem_take he)

theorem take_sum_add_last (series : List (String × ℚ)) (i : ℕ) (e : String × ℚ)
    (he : series[i]? = some e) (hlast : i + 1 = series.length) :
    ((series.take i).map Prod.snd).sum + e.2 = (series.map Prod.snd).sum := by
  have h1 : series.take (i + 1) = series := List.take_of_length_le (by omega)
  have h2 : series.take (i + 1) = series.take i ++ [e] := by
    rw [List.take_succ, he]
    rfl
  rw [h2] at h1
  conv_rhs => rw [← h1]
  simp

/-! ## Binary64 rounding -/

/-- Rounding to the nearest integer moves a number by at most one half. -/
theorem roundHalfEven_abs_sub_le (y : ℚ) : |((roundHalfEven y : ℤ) : ℚ) - y| ≤ 1 / 2 := by
  have h1 := Int.floor_le y
  have h2 := Int.lt_floor_add_one y
  unfold roundHalfEven
  split_ifs with ha hb hc
  · rw [abs_le]; constructor <;> linarith
  · rw [abs_le]; push_cast; constructor <;> linarith
  · rw [abs_le]; constructor <;> linarith
  · rw [abs_le]; push_cast; constructor <;> linarith

theorem roundHalfEven_eq_of_abs_lt (y : ℚ) (m : ℤ) (h : |y - (m : ℚ)| < 1 / 2) :
    roundHalfEven y = m := by
  rw [abs_lt] at h
  obtain ⟨hl, hr⟩ := h
  unfold roundHalfEven
  rcases le_or_lt (m : ℚ) y with hmy | hmy
  · have hf : ⌊y⌋ = m := Int.floor_eq_iff.2 ⟨hmy, by linarith⟩
    rw [hf, if_pos (by linarith)]
  · have hf : ⌊y⌋ = m - 1 := Int.floor_eq_iff.2 ⟨by push_cast; linarith, by push_cast; linarith⟩
    rw [hf]
    have h3 : ¬ (y - ((m - 1 : ℤ) : ℚ) < 1 / 2) := by push_cast; linarith
    have h4 : (1 : ℚ) / 2 < y - ((m - 1 : ℤ) : ℚ) := by push_cast; linarith
    rw [if_neg h3, if_pos h4]
    ring

theorem log_two_eq_of_bounds (a : ℚ) (e : ℤ) (h1 : (2 : ℚ) ^ e ≤ a) (h2 : a < (2 : ℚ) ^ (e + 1)) :
    Int.log 2 a = e := by
  have ha : 0 < a := lt_of_lt_of_le (zpow_pos (by norm_num) e) h1
  have hle : e ≤ Int.log 2 a :=
    (Int.zpow_le_iff_le_log (by norm_num) ha).1 (by exact_mod_cast h1)
  have hlt : Int.log 2 a < e + 1 :=
    (Int.lt_zpow_iff_log_lt (by norm_num) ha).1 (by exact_mod_cast h2)
  omega

/-- The value of `roundDouble x` from the binade of `x` and the nearest significand. -/
theorem roundDouble_eq_of_bounds (x : ℚ) (e m : ℤ) (he : -1022 ≤ e)
    (h1 : (2 : ℚ) ^ e ≤ |x|) (h2 : |x| < (2 : ℚ) ^ (e + 1))
    (h3 : |x / 2 ^ (e - 52) - (m : ℚ)| < 1 / 2) :
    roundDouble x = (m : ℚ) * 2 ^ (e - 52) := by
  have hx : x ≠ 0 := by
    intro h0
    rw [h0, abs_zero] at h1
    exact absurd h1 (not_le.2 (zpow_pos (by norm_num) e))
  unfold roundDouble
  rw [if_neg hx]
  simp only [log_two_eq_of_bounds |x| e h1 h2, max_eq_left he,
    roundHalfEven_eq_of_abs_lt _ m h3]

/-- In the normal range rounding has relative error at most `2 ^ (-53)`. -/
theorem roundDouble_abs_sub_le (x : ℚ) (hx : (2 : ℚ) ^ (-1022 : ℤ) ≤ |x|) :
    |roundDouble x - x| ≤ |x| / 2 ^ 53 := by
  have hpos : 0 < |x| := lt_of_lt_of_le (zpow_pos (by norm_num) _) hx
  have hx0 : x ≠ 0 := abs_pos.1 hpos
  have hlog : (-1022 : ℤ) ≤ Int.log 2 |x| :=
    (Int.zpow_le_iff_le_log (by norm_num) hpos).1 (by exact_mod_cast hx)
  have hle : (2 : ℚ) ^ (Int.log 2 |x|) ≤ |x| := by
    have := Int.zpow_log_le_self (b := 2) (r := |x|) (by norm_num) hpos
    exact_mod_cast this
  unfold roundDouble
  rw [if_neg hx0]
  simp only [max_eq_left hlog]
  set e := Int.log 2 |x| with he
  have hu : (0 : ℚ) < 2 ^ (e - 52) := zpow_pos (by norm_num) _
  have hr := roundHalfEven_abs_sub_le (x / 2 ^ (e - 52))
  have heq : (roundHalfEven (x / 2 ^ (e - 52)) : ℚ) * 2 ^ (e - 52) - x
      = ((roundHalfEven (x / 2 ^ (e - 52)) : ℚ) - x / 2 ^ (e - 52)) * 2 ^ (e - 52) := by
    field_simp
  rw [heq, abs_mul, abs_of_pos hu]
  have hsplit : (2 : ℚ) ^ (e - 52) = 2 ^ e / 2 ^ 52 := by
    rw [zpow_sub₀ (by norm_num : (2 : ℚ) ≠ 0)]
    norm_num
  calc |(roundHalfEven (x / 2 ^ (e - 52)) : ℚ) - x / 2 ^ (e - 52)| * 2 ^ (e - 52)
      ≤ 1 / 2 * 2 ^ (e - 52) := mul_le_mul_of_nonneg_right hr (le_of_lt hu)
    _ = 2 ^ e / 2 ^ 53 := by rw [hsplit]; ring
    _ ≤ |x| / 2 ^ 53 := div_le_div_of_nonneg_right hle (by positivity)

/-- A number that already has a 53-bit significand is left unchanged. -/
theorem roundDouble_eq_self (x : ℚ) (e m : ℤ) (he : -1022 ≤ e)
    (h1 : (2 : ℚ) ^ e ≤ |x|) (h2 : |x| < (2 : ℚ) ^ (e + 1))
    (hx : x = (m : ℚ) * 2 ^ (e - 52)) : roundDouble x = x := by
  have hu : (2 : ℚ) ^ (e - 52) ≠ 0 := zpow_ne_zero _ (by norm_num)
  have h3 : |x / 2 ^ (e - 52) - (m : ℚ)| < 1 / 2 := by
    rw [hx, mul_div_assoc, div_self hu, mul_one, sub_self, abs_zero]
    norm_num
  rw [roundDouble_eq_of_bounds x e m he h1 h2 h3]
  exact hx.symm

/-! ## Claims on the segment layout -/

/-- C1, as the code has it: for every goal `>= 0` and every series laid out by the render
loop, segment `i` gets `clampedValue = min(duration_i, goal - max(0, accumulated_i))` with
`accumulated_i` the sum of the unclamped durations before it, and the clamped values add up
to at most the goal; hence, in exact arithmetic over the rationals, the products
`clampedValue * scale` with `scale = 550 / goal` (1 at goal 0) add up to at most
`goal * scale`. Non-negativity of the durations is not needed. -/
theorem C1_clamped_sum_le_goal (goalMinutes : ℚ) (isProductive : Bool)
    (series : List (String × ℚ)) (hg : 0 ≤ goalMinutes) :
    (∀ i, i < series.length → ∃ seg e,
        (activityLines goalMinutes isProductive series)[i]? = some seg ∧
        series[i]? = some e ∧
        seg.clampedValue
          = min e.2 (goalMinutes - max 0 ((series.take i).map Prod.snd).sum)) ∧
    ((activityLines goalMinutes isProductive series).map LineView.clampedValue).sum
      ≤ goalMinutes ∧
    ((activityLines goalMinutes isProductive series).map
        (fun seg => seg.clampedValue * (if goalMinutes > 0 then 550 / goalMinutes else 1))).sum
      ≤ goalMinutes * (if goalMinutes > 0 then 550 / goalMinutes else 1) := by
  have hsum : ((activityLines goalMinutes isProductive series).map
      LineView.clampedValue).sum ≤ goalMinutes := by
    have h := clamped_sum_le series.length goalMinutes isProductive series 0 0 0
      (le_refl _) hg
    simpa [activityLines] using h
  refine ⟨?_, hsum, ?_⟩
  · intro i hi
    have he : series[i]? = some series[i] := List.getElem?_eq_getElem hi
    rw [activityLines_getElem, he]
    exact ⟨_, _, rfl, rfl, rfl⟩
  · have hscale : (0 : ℚ) ≤ (if goalMinutes > 0 then 550 / goalMinutes else 1) :=
      le_of_lt (lineScaleFactor_pos goalMinutes)
    rw [List.sum_map_mul_right]
    exact mul_le_mul_of_nonneg_right hsum hscale

/-- C1 at goal 120 and the series 100, 50, 50. -/
theorem C1_clamped_sum_le_goal_witness :
    (0 : ℚ) ≤ 120 ∧
    ((activityLines 120 false [("A", 100), ("B", 50), ("C", 50)]).map
      LineView.clampedValue).sum ≤ 120 :=
  ⟨by norm_num,
   (C1_clamped_sum_le_goal 120 false [("A", 100), ("B", 50), ("C", 50)] (by norm_num)).2.1⟩

/-- C1 as stated fails on the widths the code computes: at goal 330 with the series 1, 1, 330
the three rounded widths are 1.6666666666666667, 1.6666666666666667 and 546.6666666666667
pixels, the rendered goal width is 550, and the widths add up to more than 550. -/
theorem C1_rounded_widths_exceed_goal_width :
    (activityLines64 330 false [("A", 1), ("B", 1), ("C", 330)]).map LineView.width
      = [7505999378950827 / 4503599627370496, 7505999378950827 / 4503599627370496,
         2404265426070187 / 4398046511104] ∧
    containerWidth64 330 = 550 ∧
    containerWidth64 330
      < ((activityLines64 330 false [("A", 1), ("B", 1), ("C", 330)]).map
          LineView.width).sum := by
  have hs : roundDouble (550 / 330) = 7505999378950827 / 4503599627370496 := by
    rw [roundDouble_eq_of_bounds (550 / 330) 0 7505999378950827 (by norm_num)
      (by norm_num [abs_of_pos]) (by norm_num [abs_of_pos]) (by norm_num [abs_lt])]
    norm_num
  have h1 : roundDouble 1 = 1 :=
    roundDouble_eq_self 1 0 (2 ^ 52) (by norm_num) (by norm_num) (by norm_num)
      (by norm_num)
  have h2 : roundDouble 2 = 2 :=
    roundDouble_eq_self 2 1 (2 ^ 52) (by norm_num) (by norm_num) (by norm_num)
      (by norm_num)
  have h330 : roundDouble 330 = 330 :=
    roundDouble_eq_self 330 8 (330 * 2 ^ 44) (by norm_num) (by norm_num) (by norm_num)
      (by norm_num)
  have h329 : roundDouble 329 = 329 :=
    roundDouble_eq_self 329 8 (329 * 2 ^ 44) (by norm_num) (by norm_num) (by norm_num)
      (by norm_num)
  have h328 : roundDouble 328 = 328 :=
    roundDouble_eq_self 328 8 (328 * 2 ^ 44) (by norm_num) (by norm_num) (by norm_num)
      (by norm_num)
  have hw1 : roundDouble (7505999378950827 / 4503599627370496)
      = 7505999378950827 / 4503599627370496 :=
    roundDouble_eq_self _ 0 7505999378950827 (by norm_num) (by norm_num [abs_of_pos])
      (by norm_num [abs_of_pos]) (by norm_num)
  have hw3 : roundDouble (328 * (7505999378950827 / 4503599627370496))
      = 2404265426070187 / 4398046511104 := by
    rw [roundDouble_eq_of_bounds _ 9 4808530852140374 (by norm_num)
      (by norm_num [abs_of_pos]) (by norm_num [abs_of_pos]) (by norm_num [abs_lt])]
    norm_num
  have hc : roundDouble (330 * (7505999378950827 / 4503599627370496)) = 550 := by
    rw [roundDouble_eq_of_bounds _ 9 4837851162214400 (by norm_num)
      (by norm_num [abs_of_pos]) (by norm_num [abs_of_pos]) (by norm_num [abs_lt])]
    norm_num
  norm_num at hs hw3 hc
  have hw : (activityLines64 330 false [("A", 1), ("B", 1), ("C", 330)]).map LineView.width
      = [7505999378950827 / 4503599627370496, 7505999378950827 / 4503599627370496,
         2404265426070187 / 4398046511104] := by
    norm_num [activityLines64, activityLinesFrom64, ActivityLine64, lineScaleFactor64,
      hs, h1, h2, h330, h329, h328, hw1, hw3]
  have hcw : containerWidth64 330 = 550 := by
    norm_num [containerWidth64, hs, hc]
  refine ⟨hw, hcw, ?_⟩
  rw [hw, hcw]
  norm_num

/-- C3: with the accumulated duration threaded through the render loop, segment `i` is flagged
exceeding exactly when it is the last segment and the sum of all durations of the series is
above the goal; so at most one segment of a series is flagged. -/
theorem C3_exceeding_iff_last_and_over_goal (goalMinutes : ℚ) (isProductive : Bool)
    (series : List (String × ℚ)) :
    (∀ i, i < series.length → ∃ seg,
        (activityLines goalMinutes isProductive series)[i]? = some seg ∧
        (seg.isExceeding = true ↔
          (i + 1 = series.length ∧ goalMinutes < (series.map Prod.snd).sum))) ∧
    ((activityLines goalMinutes isProductive series).filter
      LineView.isExceeding).length ≤ 1 := by
  constructor
  · intro i hi
    have he : series[i]? = some series[i] := List.getElem?_eq_getElem hi
    refine ⟨_, by rw [activityLines_getElem, he]; rfl, ?_⟩
    simp only [ActivityLine, Bool.and_eq_true, decide_eq_true_eq, gt_iff_lt]
    constructor
    · rintro ⟨h1, h2⟩
      have hl : i + 1 = series.length := by omega
      refine ⟨hl, ?_⟩
      rw [← take_sum_add_last series i series[i] he hl]
      exact h2
    · rintro ⟨hl, h2⟩
      refine ⟨by omega, ?_⟩
      rw [take_sum_add_last series i series[i] he hl]
      exact h2
  · exact exceeding_count_le_one series.length goalMinutes isProductive series 0 0
      (by simp)

/-- C3 at goal 120 and the series 90, 50: the last segment is flagged. -/
theorem C3_exceeding_iff_last_and_over_goal_witness :
    ∃ seg, (activityLines 120 false [("A", 90), ("B", 50)])[1]? = some seg ∧
      seg.isExceeding = true := by
  obtain ⟨seg, hseg, h⟩ :=
    (C3_exceeding_iff_last_and_over_goal 120 false [("A", 90), ("B", 50)]).1 1 (by decide)
  exact ⟨seg, hseg, h.2 ⟨rfl, by norm_num⟩⟩

/-- C5, as the code has it: for a goal `> 0` and non-negative durations, a segment whose prior
accumulated duration `acc` is at most the goal gets `clampedValue = duration` when
`acc + duration` is at most the goal and `clampedValue = goal - acc` when `acc + duration` is
above it; a single activity longer than the goal is clamped to the goal and flagged
exceeding, and its width `goal * (550 / goal)` is 550 in exact arithmetic; computed in
doubles (goal and duration doubles, goal between `2 ^ (-1000)` and `2 ^ 1000`) the width is
the rounded product of the goal and the rounded quotient `550 / goal` and lies within
`550 / 2 ^ 52 + 550 / 2 ^ 106` of 550; goal 120 with `[(A, 90), (B, 50)]` gives A
`clampedValue` 90 and width `90 * scale` (412.5, also in doubles), B `clampedValue` 30 and
`isExceeding` true. -/
theorem C5_clamp_to_remaining_budget (goalMinutes : ℚ) (isProductive : Bool)
    (series : List (String × ℚ)) (hg : 0 < goalMinutes) (hnn : ∀ e ∈ series, 0 ≤ e.2) :
    (∀ i, i < series.length → ∃ seg e,
        (activityLines goalMinutes isProductive series)[i]? = some seg ∧
        series[i]? = some e ∧
        (((series.take i).map Prod.snd).sum ≤ goalMinutes →
          (((series.take i).map Prod.snd).sum + e.2 ≤ goalMinutes →
            seg.clampedValue = e.2) ∧
          (goalMinutes < ((series.take i).map Prod.snd).sum + e.2 →
            seg.clampedValue = goalMinutes - ((series.take i).map Prod.snd).sum))) ∧
    (∀ (label : String) (d : ℚ), goalMinutes < d →
        (activityLines goalMinutes isProductive [(label, d)]).map
            (fun seg => (seg.clampedValue, seg.isExceeding))
          = [(goalMinutes, true)] ∧
        goalMinutes * (550 / goalMinutes) = 550) ∧
    (∀ (label : String) (d : ℚ), goalMinutes < d →
        roundDouble goalMinutes = goalMinutes → roundDouble d = d →
        1 / 2 ^ 1000 ≤ goalMinutes → goalMinutes ≤ 2 ^ 1000 →
        ∃ seg, activityLines64 goalMinutes isProductive [(label, d)] = [seg] ∧
          seg.clampedValue = goalMinutes ∧
          seg.isExceeding = true ∧
          seg.width = roundDouble (goalMinutes * roundDouble (550 / goalMinutes)) ∧
          |seg.width - 550| ≤ 550 / 2 ^ 52 + 550 / 2 ^ 106) ∧
    (activityLines 120 isProductive [("A", 90), ("B", 50)]).map
        (fun seg => (seg.clampedValue, seg.width, seg.isExceeding))
      = [(90, 90 * (550 / 120), false), (30, 30 * (550 / 120), true)] ∧
    (activityLines64 120 isProductive [("A", 90), ("B", 50)]).map
        (fun seg => (seg.clampedValue, seg.width, seg.isExceeding))
      = [(90, 825 / 2, false), (30, 275 / 2, true)] := by
  refine ⟨?_, ?_, ?_, ?_, ?_⟩
  · intro i hi
    have he : series[i]? = some series[i] := List.getElem?_eq_getElem hi
    have hacc := take_sum_nonneg series hnn i
    rw [activityLines_getElem, he]
    refine ⟨_, _, rfl, rfl, ?_⟩
    intro _
    simp only [ActivityLine, max_eq_right hacc]
    constructor
    · intro h
      exact min_eq_left (by linarith)
    · intro h
      exact min_eq_right (by linarith)
  · intro label d hd
    have hmin : min d goalMinutes = goalMinutes := min_eq_right (le_of_lt hd)
    have hne : goalMinutes ≠ 0 := ne_of_gt hg
    refine ⟨?_, by field_simp⟩
    simp [activityLines, activityLinesFrom, ActivityLine, hmin, hd]
  · intro label d hd hgd hdd _ hhi
    have hmin : min d goalMinutes = goalMinutes := min_eq_right (le_of_lt hd)
    have hne : goalMinutes ≠ 0 := ne_of_gt hg
    have hq : (0 : ℚ) < 550 / goalMinutes := div_pos (by norm_num) hg
    have hqlo : (2 : ℚ) ^ (-1022 : ℤ) ≤ |550 / goalMinutes| := by
      rw [abs_of_pos hq, le_div_iff₀ hg]
      calc (2 : ℚ) ^ (-1022 : ℤ) * goalMinutes
          ≤ (2 : ℚ) ^ (-1022 : ℤ) * 2 ^ 1000 :=
            mul_le_mul_of_nonneg_left hhi (le_of_lt (zpow_pos (by norm_num) _))
        _ ≤ 550 := by
            rw [zpow_neg, zpow_ofNat]
            rw [inv_mul_le_iff₀ (by positivity)]
            have : (2 : ℚ) ^ 1000 ≤ 2 ^ 1022 :=
              pow_le_pow_right₀ (by norm_num) (by norm_num)
            linarith [pow_pos (by norm_num : (0 : ℚ) < 2) 1022]
    have hs := roundDouble_abs_sub_le (550 / goalMinutes) hqlo
    rw [abs_of_pos hq] at hs
    have hgs : |goalMinutes * roundDouble (550 / goalMinutes) - 550| ≤ 550 / 2 ^ 53 := by
      have h1 : goalMinutes * roundDouble (550 / goalMinutes) - 550
          = goalMinutes * (roundDouble (550 / goalMinutes) - 550 / goalMinutes) := by
        field_simp
        ring
      rw [h1, abs_mul, abs_of_pos hg]
      calc goalMinutes * |roundDouble (550 / goalMinutes) - 550 / goalMinutes|
          ≤ goalMinutes * (550 / goalMinutes / 2 ^ 53) :=
            mul_le_mul_of_nonneg_left hs (le_of_lt hg)
        _ = 550 / 2 ^ 53 := by field_simp; ring
    have hgs2 := abs_le.1 hgs
    have hplo : (2 : ℚ) ^ (-1022 : ℤ) ≤ |goalMinutes * roundDouble (550 / goalMinutes)| := by
      have h1 : (1 : ℚ) ≤ goalMinutes * roundDouble (550 / goalMinutes) := by
        have : (550 : ℚ) / 2 ^ 53 ≤ 1 := by norm_num
        linarith [hgs2.1]
      rw [abs_of_pos (by linarith)]
      have : (2 : ℚ) ^ (-1022 : ℤ) ≤ 1 := zpow_le_one_of_nonpos₀ (by norm_num) (by norm_num)
      linarith
    have hw := roundDouble_abs_sub_le (goalMinutes * roundDouble (550 / goalMinutes)) hplo
    have habs : |goalMinutes * roundDouble (550 / goalMinutes)| ≤ 550 + 550 / 2 ^ 53 := by
      rw [abs_le]
      constructor <;> linarith [hgs2.1, hgs2.2]
    simp only [activityLines64, activityLinesFrom64]
    refine ⟨_, rfl, ?_, ?_, ?_, ?_⟩
    · simp only [ActivityLine64, max_self, sub_zero, hgd, hmin]
    · simp [ActivityLine64, hdd, hd]
    · simp only [ActivityLine64, lineScaleFactor64, max_self, sub_zero, hgd, hmin, if_pos hg,
        gt_iff_lt]
    · simp only [ActivityLine64, lineScaleFactor64, max_self, sub_zero, hgd, hmin, if_pos hg,
        gt_iff_lt]
      have hw2 := abs_le.1 hw
      have hdiv : |goalMinutes * roundDouble (550 / goalMinutes)| / 2 ^ 53
          ≤ (550 + 550 / 2 ^ 53) / 2 ^ 53 :=
        div_le_div_of_nonneg_right habs (by positivity)
      rw [abs_le]
      constructor <;> linarith [hw2.1, hw2.2, hgs2.1, hgs2.2]
  · simp [activityLines, activityLinesFrom, ActivityLine, lineScaleFactor]
    norm_num
  · have hs : roundDouble (550 / 120) = 5160374573028693 / 1125899906842624 := by
      rw [roundDouble_eq_of_bounds (550 / 120) 2 5160374573028693 (by norm_num)
        (by norm_num [abs_of_pos]) (by norm_num [abs_of_pos]) (by norm_num [abs_lt])]
      norm_num
    have h120 : roundDouble 120 = 120 :=
      roundDouble_eq_self 120 6 (120 * 2 ^ 46) (by norm_num) (by norm_num) (by norm_num)
        (by norm_num)
    have h90 : roundDouble 90 = 90 :=
      roundDouble_eq_self 90 6 (90 * 2 ^ 46) (by norm_num) (by norm_num) (by norm_num)
        (by norm_num)
    have h30 : roundDouble 30 = 30 :=
      roundDouble_eq_self 30 4 (30 * 2 ^ 48) (by norm_num) (by norm_num) (by norm_num)
        (by norm_num)
    have h140 : roundDouble 140 = 140 :=
      roundDouble_eq_self 140 7 (140 * 2 ^ 45) (by norm_num) (by norm_num) (by norm_num)
        (by norm_num)
    have hwA : roundDouble (90 * (5160374573028693 / 1125899906842624)) = 825 / 2 := by
      rw [roundDouble_eq_of_bounds _ 8 7256776743321600 (by norm_num)
        (by norm_num [abs_of_pos]) (by norm_num [abs_of_pos]) (by norm_num [abs_lt])]
      norm_num
    have hwB : roundDouble (30 * (5160374573028693 / 1125899906842624)) = 275 / 2 := by
      rw [roundDouble_eq_of_bounds _ 7 4837851162214400 (by norm_num)
        (by norm_num [abs_of_pos]) (by norm_num [abs_of_pos]) (by norm_num [abs_lt])]
      norm_num
    norm_num at hs hwA hwB
    norm_num [activityLines64, activityLinesFrom64, ActivityLine64, lineScaleFactor64,
      hs, h120, h90, h30, h140, hwA, hwB]

/-- C5 at goal 535 and one activity of 600 minutes, in doubles: clamped to 535, flagged, and
a width within rounding of 550. -/
theorem C5_clamp_to_remaining_budget_witness :
    (0 : ℚ) < 535 ∧ (∀ e ∈ [("A", (600 : ℚ))], 0 ≤ e.2) ∧
    ∃ seg, activityLines64 535 false [("A", 600)] = [seg] ∧
      seg.clampedValue = 535 ∧ seg.isExceeding = true ∧
      |seg.width - 550| ≤ 550 / 2 ^ 52 + 550 / 2 ^ 106 := by
  refine ⟨by norm_num, by simp, ?_⟩
  obtain ⟨seg, h1, h2, h3, _, h5⟩ :=
    (C5_clamp_to_remaining_budget 535 false [("A", 600)] (by norm_num) (by simp)).2.2.1
      "A" 600 (by norm_num)
      (roundDouble_eq_self 535 9 (535 * 2 ^ 43) (by norm_num) (by norm_num) (by norm_num)
        (by norm_num))
      (roundDouble_eq_self 600 9 (600 * 2 ^ 43) (by norm_num) (by norm_num) (by norm_num)
        (by norm_num))
      (by norm_num) (by norm_num)
  exact ⟨seg, h1, h2, h3, h5⟩

/-- C5 as stated fails on the width the code computes: at goal 535 a single activity of 600
minutes is clamped to 535 and flagged, but its rounded width is 549.9999999999999 pixels, one
unit in the last place below 550. -/
theorem C5_rounded_width_is_not_550 :
    (activityLines64 535 false [("A", 600)]).map
        (fun seg => (seg.clampedValue, seg.width, seg.isExceeding))
      = [(535, 4837851162214399 / 8796093022208, true)] ∧
    (4837851162214399 / 8796093022208 : ℚ) < 550 := by
  have hs : roundDouble (550 / 535) = 4629868775801444 / 4503599627370496 := by
    rw [roundDouble_eq_of_bounds (550 / 535) 0 4629868775801444 (by norm_num)
      (by norm_num [abs_of_pos]) (by norm_num [abs_of_pos]) (by norm_num [abs_lt])]
    norm_num
  have h535 : roundDouble 535 = 535 :=
    roundDouble_eq_self 535 9 (535 * 2 ^ 43) (by norm_num) (by norm_num) (by norm_num)
      (by norm_num)
  have h600 : roundDouble 600 = 600 :=
    roundDouble_eq_self 600 9 (600 * 2 ^ 43) (by norm_num) (by norm_num) (by norm_num)
      (by norm_num)
  have hw : roundDouble (535 * (4629868775801444 / 4503599627370496))
      = 4837851162214399 / 8796093022208 := by
    rw [roundDouble_eq_of_bounds _ 9 4837851162214399 (by norm_num)
      (by norm_num [abs_of_pos]) (by norm_num [abs_of_pos]) (by norm_num [abs_lt])]
    norm_num
  norm_num at hs hw
  constructor
  · norm_num [activityLines64, activityLinesFrom64, ActivityLine64, lineScaleFactor64,
      hs, h535, h600, hw]
  · norm_num

/-- C4, as the code has it: with goal 0 the scale is the fallback 1, and the one-segment
series `[(label, d)]`, `d >= 0`, is clamped to the zero goal budget: `clampedValue` 0,
width 0, and `isExceeding` true exactly when `d > 0`. -/
theorem C4_goal_zero_clamps_to_zero (label : String) (d : ℚ) (isProductive : Bool)
    (hd : 0 ≤ d) :
    lineScaleFactor 0 = 1 ∧
    (activityLines 0 isProductive [(label, d)]).map
        (fun seg => (seg.scale, seg.clampedValue, seg.width, seg.isExceeding))
      = [(1, 0, 0, decide (0 < d))] := by
  have hmin : min d 0 = 0 := min_eq_right hd
  simp [activityLines, activityLinesFrom, ActivityLine, lineScaleFactor, hmin]

/-- C4 at the scenario of the specification, goal 0 and `[("A", 30)]`. -/
theorem C4_goal_zero_clamps_to_zero_witness :
    (0 : ℚ) ≤ 30 ∧
    (activityLines 0 false [("A", 30)]).map
        (fun seg => (seg.scale, seg.clampedValue, seg.width, seg.isExceeding))
      = [(1, 0, 0, decide ((0 : ℚ) < 30))] :=
  ⟨by norm_num, (C4_goal_zero_clamps_to_zero "A" 30 false (by norm_num)).2⟩

/-- C4 as stated fails: goal 0 and `[("A", 30)]` give width 0, not 30. -/
theorem C4_width_is_not_duration_at_goal_zero :
    (activityLines 0 false [("A", 30)]).map LineView.width = [0] ∧
    ¬ ((activityLines 0 false [("A", 30)]).map LineView.width = [30]) := by
  constructor <;>
    simp [activityLines, activityLinesFrom, ActivityLine, lineScaleFactor]

/-- C2 at goal 120 and the series 100, 50, 50: the third segment starts with 150 minutes
already accumulated, and `ActivityLine` gives it `clampedValue = -30` and a width of
`-137.5` pixels. -/
theorem C2_negative_width_past_goal :
    (activityLines 120 false [("A", 100), ("B", 50), ("C", 50)]).map
        (fun seg => (seg.clampedValue, seg.width))
      = [(100, 1375 / 3), (20, 275 / 3), (-30, -(275 / 2))] ∧
    (120 : ℚ) ≤ (([("A", (100 : ℚ)), ("B", 50), ("C", 50)].take 2).map Prod.snd).sum := by
  constructor
  · simp [activityLines, activityLinesFrom, ActivityLine, lineScaleFactor]
    norm_num
  · norm_num

/-! ## Scale factor and minute ruler -/

/-- C6: the scale factor of `MinuteScale` and of `ActivityLine` is positive for every goal,
satisfies `scale * goal = 550` exactly for every goal `> 0`, is 1 at goal 0, and is the same
in both components. -/
theorem C6_scale_factor (goalMinutes : ℚ) :
    0 < minuteScaleFactor goalMinutes ∧ 0 < lineScaleFactor goalMinutes ∧
    (0 < goalMinutes →
      minuteScaleFactor goalMinutes * goalMinutes = 550 ∧
      lineScaleFactor goalMinutes * goalMinutes = 550) ∧
    minuteScaleFactor 0 = 1 ∧ lineScaleFactor 0 = 1 ∧
    lineScaleFactor goalMinutes = minuteScaleFactor goalMinutes ∧
    (∀ p : LineProps, (ActivityLine p).scale = lineScaleFactor p.maxValue) ∧
    (MinuteScale goalMinutes).width = goalMinutes * minuteScaleFactor goalMinutes ∧
    (MinuteScale goalMinutes).markers
      = markersFrom 60 (minuteScaleFactor goalMinutes) ⌈goalMinutes / 60⌉ 0 := by
  refine ⟨minuteScaleFactor_pos _, lineScaleFactor_pos _, ?_, ?_, ?_, rfl, fun _ => rfl,
    rfl, rfl⟩
  · intro hg
    exact ⟨by rw [← lineScaleFactor_eq]; exact lineScaleFactor_mul_self _ hg,
      lineScaleFactor_mul_self _ hg⟩
  · simp [minuteScaleFactor]
  · simp [lineScaleFactor]

/-- C6 at goal 120. -/
theorem C6_scale_factor_witness :
    (0 : ℚ) < 120 ∧ minuteScaleFactor 120 * 120 = 550 ∧ lineScaleFactor 120 * 120 = 550 :=
  ⟨by norm_num, (C6_scale_factor 120).2.2.1 (by norm_num)⟩

theorem markersFrom_eq_range (step scale : ℚ) (totalTicks : ℤ) :
    ∀ (k i : ℕ), (i : ℤ) + (k : ℤ) = totalTicks + 1 →
      markersFrom step scale totalTicks i = (List.range' i k).map (marker step scale) := by
  intro k
  induction k with
  | zero =>
    intro i h
    rw [markersFrom, if_neg (by omega)]
    rfl
  | succ k ih =>
    intro i h
    rw [markersFrom, if_pos (by omega), ih (i + 1) (by push_cast at h ⊢; omega)]
    rfl

theorem minuteScale_markers (g : ℚ) (hg : 0 ≤ g) :
    (MinuteScale g).markers
      = (List.range (⌈g / 60⌉.toNat + 1)).map (marker 60 (minuteScaleFactor g)) := by
  have hc : 0 ≤ ⌈g / 60⌉ := Int.ceil_nonneg (div_nonneg hg (by norm_num))
  have h := markersFrom_eq_range 60 (minuteScaleFactor g) ⌈g / 60⌉ (⌈g / 60⌉.toNat + 1) 0
    (by push_cast; rw [Int.toNat_of_nonneg hc]; ring)
  rw [List.range_eq_range']
  exact h

/-- C7: for every goal `>= 0`, `MinuteScale` produces `ceil(goal / 60) + 1` ticks; the
`i`-th carries the minute value `60 * i`, sits at pixel offset 0 when `i = 0` and at
`minuteValue * scale` otherwise (centred on it), where `scale` is `550 / goal` for a goal
`> 0` and 1 for goal 0; the minute values increase, and the last one is
`ceil(goal / 60) * 60`, at least the goal and less than the goal plus 60. -/
theorem C7_minute_ruler (goalMinutes : ℚ) (hg : 0 ≤ goalMinutes) :
    (((MinuteScale goalMinutes).markers.length : ℕ) : ℤ) = ⌈goalMinutes / 60⌉ + 1 ∧
    (∀ i, i < (MinuteScale goalMinutes).markers.length → ∃ m,
        (MinuteScale goalMinutes).markers[i]? = some m ∧
        m.key = i ∧
        m.minuteValue = 60 * (i : ℚ) ∧
        m.left = (if i = 0 then 0
          else m.minuteValue * (if goalMinutes > 0 then 550 / goalMinutes else 1)) ∧
        m.centered = decide (i ≠ 0)) ∧
    ((MinuteScale goalMinutes).markers.map Marker.minuteValue).Pairwise (· < ·) ∧
    (∃ m, (MinuteScale goalMinutes).markers.getLast? = some m ∧
        m.minuteValue = ((⌈goalMinutes / 60⌉ : ℤ) : ℚ) * 60 ∧
        goalMinutes ≤ m.minuteValue ∧ m.minuteValue < goalMinutes + 60) := by
  have hc : 0 ≤ ⌈goalMinutes / 60⌉ := Int.ceil_nonneg (div_nonneg hg (by norm_num))
  have hcast : ((⌈goalMinutes / 60⌉.toNat : ℕ) : ℤ) = ⌈goalMinutes / 60⌉ :=
    Int.toNat_of_nonneg hc
  rw [minuteScale_markers goalMinutes hg]
  refine ⟨?_, ?_, ?_, ?_⟩
  · simp [hcast]
  · intro i hi
    simp only [List.length_map, List.length_range] at hi
    refine ⟨marker 60 (minuteScaleFactor goalMinutes) i, ?_, rfl, ?_, ?_, ?_⟩
    · simp [List.getElem?_range hi]
    · simp [marker, mul_comm]
    · simp [marker, minuteScaleFactor, mul_comm]
    · simp [marker]
  · rw [List.map_map, List.pairwise_map]
    refine (List.pairwise_lt_range _).imp ?_
    intro a b hab
    have : (a : ℚ) < (b : ℚ) := by exact_mod_cast hab
    simp only [Function.comp, marker]
    linarith
  · refine ⟨marker 60 (minuteScaleFactor goalMinutes) ⌈goalMinutes / 60⌉.toNat, ?_, ?_, ?_, ?_⟩
    · rw [List.getLast?_eq_getElem?]
      simp [List.getElem?_range]
    · have : ((⌈goalMinutes / 60⌉.toNat : ℕ) : ℚ) = ((⌈goalMinutes / 60⌉ : ℤ) : ℚ) := by
        exact_mod_cast hcast
      simp [marker, this]
    · have h1 := Int.le_ceil (goalMinutes / 60)
      have : ((⌈goalMinutes / 60⌉.toNat : ℕ) : ℚ) = ((⌈goalMinutes / 60⌉ : ℤ) : ℚ) := by
        exact_mod_cast hcast
      simp only [marker, this]
      linarith
    · have h1 := Int.ceil_lt_add_one (goalMinutes / 60)
      have : ((⌈goalMinutes / 60⌉.toNat : ℕ) : ℚ) = ((⌈goalMinutes / 60⌉ : ℤ) : ℚ) := by
        exact_mod_cast hcast
      simp only [marker, this]
      linarith

/-- C7 at goal 130: four ticks, the second at minute 60 and pixel offset `60 * (550 / 130)`. -/
theorem C7_minute_ruler_witness :
    (0 : ℚ) ≤ 130 ∧
    (((MinuteScale 130).markers.length : ℕ) : ℤ) = 4 ∧
    ∃ m, (MinuteScale 130).markers[1]? = some m ∧ m.minuteValue = 60 ∧
      m.left = 3300 / 13 := by
  have hceil : ⌈(130 : ℚ) / 60⌉ = 3 := by
    rw [Int.ceil_eq_iff]
    constructor <;> norm_num
  have h := C7_minute_ruler 130 (by norm_num)
  rw [hceil] at h
  have hlen : (((MinuteScale 130).markers.length : ℕ) : ℤ) = 4 := by
    rw [h.1]
    norm_num
  obtain ⟨m, hm, _, hv, hl, _⟩ := h.2.1 1 (by omega)
  refine ⟨by norm_num, hlen, m, hm, by rw [hv]; norm_num, ?_⟩
  rw [hl, hv]
  norm_num

/-! ## Day selector -/

/-- C8, as the code has it: when `today.morning_poll_completed` or `today.is_rest_day` holds,
the selectable days are `history` with one record prepended whose fields are today's and whose
date is today's own `date` when the record carries one and the current calendar date
otherwise; when both flags are false they are exactly `history`. Looking up a date returns the
first selectable day with that date and is absent exactly when no selectable day has it. -/
theorem C8_date_options (todayDate : String) (stats : StatsResponse) :
    ((stats.today.morning_poll_completed = true ∨ stats.today.is_rest_day = true) →
      dateOptions todayDate stats
        = { stats.today with date := some (stats.today.date.getD todayDate) }
            :: stats.history) ∧
    ((stats.today.morning_poll_completed = false ∧ stats.today.is_rest_day = false) →
      dateOptions todayDate stats = stats.history) ∧
    (∀ selectedDate day, historyData todayDate stats selectedDate = some day ↔
      (day.date = some selectedDate ∧
        ∃ before after, dateOptions todayDate stats = before ++ day :: after ∧
          ∀ x ∈ before, x.date ≠ some selectedDate)) ∧
    (∀ selectedDate, historyData todayDate stats selectedDate = none ↔
      ∀ x ∈ dateOptions todayDate stats, x.date ≠ some selectedDate) := by
  refine ⟨?_, ?_, ?_, ?_⟩
  · intro h
    have hflag : (stats.today.morning_poll_completed || stats.today.is_rest_day) = true := by
      simpa using h
    unfold dateOptions
    rw [if_pos hflag]
    cases hd : stats.today.date <;> simp [withDate, hd]
  · rintro ⟨h1, h2⟩
    simp [dateOptions, h1, h2]
  · intro selectedDate day
    unfold historyData
    rw [List.find?_eq_some]
    simp
  · intro selectedDate
    unfold historyData
    simp

/-- C8 on a rest day whose record has no own date: the current date is used. -/
theorem C8_date_options_witness :
    dateOptions "2024-01-02"
        ⟨⟨none, true, false, 120, 0, 0, .object [], .object [], []⟩, []⟩
      = [⟨some "2024-01-02", true, false, 120, 0, 0, .object [], .object [], []⟩] :=
  (C8_date_options "2024-01-02"
    ⟨⟨none, true, false, 120, 0, 0, .object [], .object [], []⟩, []⟩).1 (Or.inr rfl)

/-- C8 as stated fails for a today record that carries its own date: the spread
`...stats.today` comes after `date: todayDate`, so the prepended record keeps the date of the
record, here "2024-01-01", and not the current calendar date "2024-01-02". -/
theorem C8_own_date_replaces_current_date :
    (dateOptions "2024-01-02"
        ⟨⟨some "2024-01-01", false, true, 120, 0, 0, .object [], .object [], []⟩, []⟩).map
      DayRecord.date = [some "2024-01-01"] ∧
    ¬ ((dateOptions "2024-01-02"
        ⟨⟨some "2024-01-01", false, true, 120, 0, 0, .object [], .object [], []⟩, []⟩).map
      DayRecord.date = [some "2024-01-02"]) := by
  constructor
  · rfl
  · simp [dateOptions, withDate]

/-! ## Colours -/

theorem activityLegendsFrom_getElem :
    ∀ (labels : List String) (i k : ℕ),
      (activityLegendsFrom labels i)[k]? =
        (labels[k]?).map (fun label =>
          ActivityLegend label colors[(i + k) % colors.length]?) := by
  intro labels
  induction labels with
  | nil => intro i k; simp [activityLegendsFrom]
  | cons l rest ih =>
    intro i k
    cases k with
    | zero => simp [activityLegendsFrom]
    | succ k =>
      simp only [activityLegendsFrom, List.getElem?_cons_succ, ih]
      have h1 : i + 1 + k = i + (k + 1) := by omega
      rw [h1]

/-- C9: the `i`-th timeline segment and the `i`-th legend entry of a series both get the
colour `colors[i mod 10]`; the palette has 10 pairwise distinct colours, so positions `i` and
`i + 10` share a colour and positions `i < j < 10` never do. -/
theorem C9_colour_by_position (goalMinutes : ℚ) (isProductive : Bool)
    (series : List (String × ℚ)) :
    (∀ i, i < series.length → ∃ seg leg e c,
        (activityLines goalMinutes isProductive series)[i]? = some seg ∧
        (activityLegends (series.map Prod.fst))[i]? = some leg ∧
        series[i]? = some e ∧
        colors[i % 10]? = some c ∧
        seg.backgroundColor = some c ∧ leg.color = some c ∧ leg.label = e.1) ∧
    colors.length = 10 ∧ colors.Nodup ∧
    (∀ i, colors[(i + 10) % 10]? = colors[i % 10]?) ∧
    (∀ i j, i < j → j < 10 → colors[i % 10]? ≠ colors[j % 10]?) := by
  have hlen : colors.length = 10 := rfl
  refine ⟨?_, hlen, by decide, ?_, ?_⟩
  · intro i hi
    have he : series[i]? = some series[i] := List.getElem?_eq_getElem hi
    have hlt : i % 10 < colors.length := by rw [hlen]; exact Nat.mod_lt _ (by norm_num)
    have hc : colors[i % 10]? = some colors[i % 10] := List.getElem?_eq_getElem hlt
    unfold activityLegends
    rw [activityLines_getElem, activityLegendsFrom_getElem, List.getElem?_map, he]
    exact ⟨_, _, _, _, rfl, rfl, rfl, hc, by simp only [ActivityLine, hlen, hc],
      by simp only [ActivityLegend, hlen, Nat.zero_add, hc], rfl⟩
  · intro i
    rw [Nat.add_mod_right]
  · intro i j hij hj
    have hi : i < 10 := by omega
    rw [Nat.mod_eq_of_lt hi, Nat.mod_eq_of_lt hj]
    interval_cases j <;> interval_cases i <;> first | omega | decide

/-- C9 on the series A, B: the second segment and the second legend entry share a colour. -/
theorem C9_colour_by_position_witness :
    ∃ seg leg c, (activityLines 120 false [("A", 90), ("B", 50)])[1]? = some seg ∧
      (activityLegends ([("A", (90 : ℚ)), ("B", 50)].map Prod.fst))[1]? = some leg ∧
      seg.backgroundColor = some c ∧ leg.color = some c := by
  obtain ⟨seg, leg, _, c, h1, h2, _, _, h3, h4, _⟩ :=
    (C9_colour_by_position 120 false [("A", 90), ("B", 50)]).1 1 (by decide)
  exact ⟨seg, leg, c, h1, h2, h3, h4⟩

/-! ## Totality of the series extraction -/

/-- C10, as the code has it: when both breakdowns of the today record are objects, computing
the labels and values does not fail; a series section is rendered exactly when the day is not
a rest day and the breakdown has at least one entry, so an empty breakdown gives zero segments
and an omitted section. When a breakdown is missing (`undefined` or `null`), `Object.keys`
throws and nothing is rendered. -/
theorem C10_timeline_of_breakdowns (stats : StatsResponse) :
    (∀ screen productive,
      stats.today.screen_time_breakdown = .object screen →
      stats.today.productive_time_breakdown = .object productive →
      ObjectKeys stats.today.screen_time_breakdown = .ok (screen.map Prod.fst) ∧
      ObjectValues stats.today.screen_time_breakdown = .ok (screen.map Prod.snd) ∧
      ∃ v, timeline stats = .ok v ∧
        v.screenCard =
          (if stats.today.is_rest_day = true ∨ screen = [] then none
           else some (card stats.today.screen_time_goal false screen)) ∧
        v.productiveCard =
          (if stats.today.is_rest_day = true ∨ productive = [] then none
           else some (card stats.today.screen_time_goal true productive))) ∧
    (∀ (g : ℚ) (p : Bool), activityLines g p [] = []) ∧
    ((stats.today.screen_time_breakdown = .undefined ∨
      stats.today.screen_time_breakdown = .null ∨
      stats.today.productive_time_breakdown = .undefined ∨
      stats.today.productive_time_breakdown = .null) →
      timeline stats = .error "TypeError: Cannot convert undefined or null to object") := by
  refine ⟨?_, fun _ _ => rfl, ?_⟩
  · intro screen productive hs hp
    refine ⟨by rw [hs]; rfl, by rw [hs]; rfl, ?_⟩
    unfold timeline
    rw [hs, hp]
    cases hr : stats.today.is_rest_day
    · cases screen <;> cases productive <;>
        exact ⟨_, rfl, by simp [JsBreakdown.entries], by simp [JsBreakdown.entries]⟩
    · exact ⟨_, rfl, by simp, by simp⟩
  · intro h
    unfold timeline
    cases hs : stats.today.screen_time_breakdown <;>
      cases hp : stats.today.productive_time_breakdown <;>
      simp_all <;> rfl

/-- C10 on a payload with an empty screen-time breakdown: no failure and no section. -/
theorem C10_timeline_of_breakdowns_witness :
    ∃ v, timeline ⟨⟨none, false, true, 120, 0, 0, .object [], .object [("Code", 45)], []⟩, []⟩
        = .ok v ∧
      v.screenCard = none ∧
      v.productiveCard = some (card 120 true [("Code", 45)]) := by
  obtain ⟨_, _, v, hv, h1, h2⟩ := (C10_timeline_of_breakdowns
    ⟨⟨none, false, true, 120, 0, 0, .object [], .object [("Code", 45)], []⟩, []⟩).1
      [] [("Code", 45)] rfl rfl
  exact ⟨v, hv, by simpa using h1, by simpa using h2⟩

/-- C10 as stated fails: with the screen-time breakdown missing, `Object.keys` throws and the
render does not produce a page. -/
theorem C10_missing_breakdown_throws :
    timeline ⟨⟨none, false, true, 120, 0, 0, .undefined, .object [], []⟩, []⟩
      = .error "TypeError: Cannot convert undefined or null to object" ∧
    ¬ ∃ v, timeline ⟨⟨none, false, true, 120, 0, 0, .undefined, .object [], []⟩, []⟩
      = .ok v := by
  constructor
  · rfl
  · rintro ⟨v, hv⟩
    have h : timeline ⟨⟨none, false, true, 120, 0, 0, .undefined, .object [], []⟩, []⟩
        = .error "TypeError: Cannot convert undefined or null to object" := rfl
    rw [h] at hv
    exact Except.noConfusion hv

end RegimeGuardian
